import Mathlib

/-!
Verification development for the workflow orchestrator backend
(`backend/services/workflow_service.py`, `backend/models.py`,
`backend/routers/tools.py`, `backend/schemas.py`).

The Python code is shallowly embedded: JSON-ish Python values become the
inductive type `PyVal`, Python dicts become association lists looked up by
first occurrence of the key (Python dicts have unique keys, so the two agree
on every dict the code builds; where the code builds a dict by repeated
assignment we fold with `alistSet`, which mirrors "last assignment wins"),
and every fallible code path returns `Except`.  Each definition's doc
comment names the source lines it embeds.
-/

namespace WS

/-- A Python value as it occurs in the JSON columns and request payloads the
backend manipulates: `None`, `bool`, `int`, `str`, `list`, `dict`.
(`float` values never arise in the code paths embedded here and are omitted;
Python `bool` is a subclass of `int`, which the embedding accounts for
wherever the code does an `isinstance(_, int)` check.) -/
inductive PyVal where
  | none
  | bool (b : Bool)
  | int (n : Int)
  | str (s : String)
  | list (xs : List PyVal)
  | dict (kvs : List (String × PyVal))

/-- The single-quote character, written via its code point. -/
def qm : String := String.singleton (Char.ofNat 39)

/-- Decimal digit character. -/
def digitChar (n : Nat) : Char := Char.ofNat (48 + n)

/-- Decimal rendering of a natural number (fuel-structured so it reduces). -/
def natStrAux : Nat → Nat → List Char
  | 0, _ => []
  | fuel+1, n => if n < 10 then [digitChar n] else natStrAux fuel (n / 10) ++ [digitChar (n % 10)]

/-- Decimal rendering of a natural number. -/
def natStr (n : Nat) : String := String.mk (natStrAux (n+1) n)

/-- Decimal rendering of an integer, matching Python `str` on `int`. -/
def intStr : Int → String
  | Int.ofNat n => natStr n
  | Int.negSucc n => "-" ++ natStr (n+1)

/-- Comma-space separation, as in Python `repr` of containers. -/
def commaSep : List String → String
  | [] => ""
  | [s] => s
  | s :: t :: r => s ++ ", " ++ commaSep (t :: r)

mutual
/-- Python `repr` on the embedded values (string escaping inside `repr` of a
`str` is not modelled: the development only evaluates `repr` on strings
without quotes or backslashes). -/
def pyRepr : PyVal → String
  | PyVal.none => "None"
  | PyVal.bool b => if b then "True" else "False"
  | PyVal.int n => intStr n
  | PyVal.str s => qm ++ s ++ qm
  | PyVal.list xs => "[" ++ pyReprList xs ++ "]"
  | PyVal.dict kvs => "\x7b" ++ pyReprDict kvs ++ "\x7d"

/-- `repr` of the elements of a Python list, comma-separated. -/
def pyReprList : List PyVal → String
  | [] => ""
  | [x] => pyRepr x
  | x :: y :: xs => pyRepr x ++ ", " ++ pyReprList (y :: xs)

/-- `repr` of the entries of a Python dict, comma-separated. -/
def pyReprDict : List (String × PyVal) → String
  | [] => ""
  | [(k, v)] => qm ++ k ++ qm ++ ": " ++ pyRepr v
  | (k, v) :: w :: kvs => qm ++ k ++ qm ++ ": " ++ pyRepr v ++ ", " ++ pyReprDict (w :: kvs)
end

/-- Python `str()` on the embedded values: the identity on strings, `repr`
otherwise (this is exactly CPython behaviour for the embedded types). -/
def pyStr : PyVal → String
  | PyVal.str s => s
  | v => pyRepr v

/-- Lookup in a Python dict embedded as an association list (first match;
Python dicts have unique keys). -/
def alistGet {α : Type} : List (String × α) → String → Option α
  | [], _ => Option.none
  | (k, v) :: t, key => if k = key then some v else alistGet t key

/-- `d.get(key, default)` on a Python dict. -/
def alistGetD {α : Type} (l : List (String × α)) (key : String) (d : α) : α :=
  (alistGet l key).getD d

/-- `key in d` on a Python dict. -/
def alistHasKey {α : Type} (l : List (String × α)) (key : String) : Bool :=
  (alistGet l key).isSome

/-- `d[key] = v` on a Python dict: overwrite in place, else append. -/
def alistSet {α : Type} : List (String × α) → String → α → List (String × α)
  | [], key, v => [(key, v)]
  | (k, w) :: t, key, v => if k = key then (k, v) :: t else (k, w) :: alistSet t key v

/-- Python `isinstance(x, int)` on the embedded values: `bool` is a subclass
of `int` in Python, so both constructors qualify. -/
def isInstInt : PyVal → Bool
  | PyVal.int _ => true
  | PyVal.bool _ => true
  | _ => false

/-- Trim the ASCII whitespace Python `int(str)` ignores. -/
def isPyWs (c : Char) : Bool :=
  c = ' ' || c = Char.ofNat 9 || c = Char.ofNat 10 || c = Char.ofNat 13

/-- Parse an optionally signed decimal digit string. -/
def parseDigits : List Char → Option Nat
  | [] => Option.none
  | [c] => if c.isDigit then some (c.toNat - 48) else Option.none
  | c :: d :: r =>
      if c.isDigit then
        match parseDigits (d :: r) with
        | some m => some ((c.toNat - 48) * 10 ^ (d :: r).length + m)
        | Option.none => Option.none
      else Option.none

/-- Python `int(x)` on the embedded values (underscored digit groups are not
modelled): succeeds on `int` and `bool`, on decimal strings with optional
sign and surrounding whitespace; raises (`Except.error`) otherwise. -/
def pyInt : PyVal → Except Unit Int
  | PyVal.int n => Except.ok n
  | PyVal.bool b => Except.ok (if b then 1 else 0)
  | PyVal.str s =>
      let core := (s.data.dropWhile isPyWs).reverse.dropWhile isPyWs |>.reverse
      match core with
      | [] => Except.error ()
      | c :: r =>
          if c = '-' then
            match parseDigits r with
            | some n => Except.ok (-(n : Int))
            | Option.none => Except.error ()
          else if c = '+' then
            match parseDigits r with
            | some n => Except.ok (n : Int)
            | Option.none => Except.error ()
          else
            match parseDigits (c :: r) with
            | some n => Except.ok (n : Int)
            | Option.none => Except.error ()
  | _ => Except.error ()

/-! ## Model of the Python standard library `json.loads`

`models.py` and `routers/tools.py` call `json.loads`; the library itself is
outside this repository, so it is modelled here: JSON values over `PyVal`,
restricted to integer numerals and to strings without escape sequences, with
positions reported for single-line inputs (`line 1`).  On an input whose
first non-space character cannot start a JSON value, CPython's `json.loads`
raises `json.JSONDecodeError("Expecting value: line 1 column c (char p)")`;
that message — the only `json.loads` behaviour a theorem below evaluates —
is reproduced exactly. -/

/-- The whitespace `json.loads` skips. -/
def jsonWsChar (c : Char) : Bool :=
  c = ' ' || c = Char.ofNat 9 || c = Char.ofNat 10 || c = Char.ofNat 13

/-- CPython's `JSONDecodeError` message for a bad value start at char
position `p` of a single-line document. -/
def expectingValue (p : Nat) : String :=
  "Expecting value: line 1 column " ++ natStr (p+1) ++ " (char " ++ natStr p ++ ")"

/-- Leading decimal digits of a JSON numeral, with the remainder. -/
def jsonDigits : List Char → Option (Nat × List Char)
  | [] => Option.none
  | c :: r =>
      if c.isDigit then
        match jsonDigits r with
        | some (m, rest) =>
            some ((c.toNat - 48) * 10 ^ (r.length - rest.length) + m, rest)
        | Option.none => some (c.toNat - 48, r)
      else Option.none

/-- Body of a JSON string up to the closing double quote (escape sequences
are outside the modelled subset). -/
def jsonStringBody : List Char → Option (List Char × List Char)
  | [] => Option.none
  | c :: r =>
      if c = Char.ofNat 34 then some ([], r)
      else
        match jsonStringBody r with
        | some (s, rest) => some (c :: s, rest)
        | Option.none => Option.none

mutual
/-- One JSON value starting in `cs`, returning it with the unconsumed
remainder.  `total` is the document length (for positions); the fuel is
consumed one unit per container item and nesting level. -/
def jsonValue (total : Nat) : Nat → List Char → Except String (PyVal × List Char)
  | 0, _ => Except.error "Invalid nesting"
  | fuel+1, cs0 =>
      let cs := cs0.dropWhile jsonWsChar
      let pos := total - cs.length
      match cs with
      | [] => Except.error (expectingValue pos)
      | c :: r =>
          if c = Char.ofNat 34 then
            match jsonStringBody r with
            | some (s, rest) => Except.ok (PyVal.str (String.mk s), rest)
            | Option.none =>
                Except.error ("Unterminated string starting at: line 1 column " ++
                  natStr (pos+1) ++ " (char " ++ natStr pos ++ ")")
          else if c = Char.ofNat 123 then jsonObjItems total fuel (total - r.length) r []
          else if c = '[' then jsonArrItems total fuel (total - r.length) r []
          else if c = 't' then
            if ['r', 'u', 'e'].isPrefixOf r then Except.ok (PyVal.bool true, r.drop 3)
            else Except.error (expectingValue pos)
          else if c = 'f' then
            if ['a', 'l', 's', 'e'].isPrefixOf r then Except.ok (PyVal.bool false, r.drop 4)
            else Except.error (expectingValue pos)
          else if c = 'n' then
            if ['u', 'l', 'l'].isPrefixOf r then Except.ok (PyVal.none, r.drop 3)
            else Except.error (expectingValue pos)
          else if c = '-' then
            match jsonDigits r with
            | some (m, rest) => Except.ok (PyVal.int (-(m : Int)), rest)
            | Option.none => Except.error (expectingValue pos)
          else if c.isDigit then
            match jsonDigits (c :: r) with
            | some (m, rest) => Except.ok (PyVal.int (m : Int), rest)
            | Option.none => Except.error (expectingValue pos)
          else Except.error (expectingValue pos)

/-- Members of a JSON object after its `{` (at char position `opened`),
accumulating parsed entries. -/
def jsonObjItems (total : Nat) : Nat → Nat → List Char → List (String × PyVal) →
    Except String (PyVal × List Char)
  | 0, _, _, _ => Except.error "Invalid nesting"
  | fuel+1, opened, cs0, acc =>
      let cs := cs0.dropWhile jsonWsChar
      let pos := total - cs.length
      match cs with
      | [] => Except.error ("Expecting property name enclosed in double quotes: line 1 column " ++
          natStr (pos+1) ++ " (char " ++ natStr pos ++ ")")
      | c :: r =>
          if c = Char.ofNat 125 then
            if acc.isEmpty then Except.ok (PyVal.dict [], r)
            else Except.error ("Expecting property name enclosed in double quotes: line 1 column " ++
              natStr (pos+1) ++ " (char " ++ natStr pos ++ ")")
          else if c = Char.ofNat 34 then
            match jsonStringBody r with
            | Option.none => Except.error ("Unterminated string starting at: line 1 column " ++
                natStr (pos+1) ++ " (char " ++ natStr pos ++ ")")
            | some (key, afterKey) =>
                let afterKeyWs := afterKey.dropWhile jsonWsChar
                match afterKeyWs with
                | ':' :: afterColon =>
                    match jsonValue total fuel afterColon with
                    | Except.error e => Except.error e
                    | Except.ok (v, afterVal) =>
                        let acc := acc ++ [(String.mk key, v)]
                        let afterValWs := afterVal.dropWhile jsonWsChar
                        match afterValWs with
                        | ',' :: next => jsonObjItems total fuel opened next acc
                        | c2 :: next =>
                            if c2 = Char.ofNat 125 then Except.ok (PyVal.dict acc, next)
                            else Except.error ("Expecting ',' delimiter: line 1 column " ++
                              natStr (total - afterValWs.length + 1) ++ " (char " ++
                              natStr (total - afterValWs.length) ++ ")")
                        | [] => Except.error ("Expecting ',' delimiter: line 1 column " ++
                            natStr (total+1) ++ " (char " ++ natStr total ++ ")")
                | _ => Except.error ("Expecting ':' delimiter: line 1 column " ++
                    natStr (total - afterKeyWs.length + 1) ++ " (char " ++
                    natStr (total - afterKeyWs.length) ++ ")")
          else Except.error ("Expecting property name enclosed in double quotes: line 1 column " ++
              natStr (pos+1) ++ " (char " ++ natStr pos ++ ")")

/-- Elements of a JSON array after its `[` (at char position `opened`),
accumulating parsed elements. -/
def jsonArrItems (total : Nat) : Nat → Nat → List Char → List PyVal →
    Except String (PyVal × List Char)
  | 0, _, _, _ => Except.error "Invalid nesting"
  | fuel+1, opened, cs0, acc =>
      let cs := cs0.dropWhile jsonWsChar
      match cs with
      | ']' :: r =>
          if acc.isEmpty then Except.ok (PyVal.list [], r)
          else Except.error (expectingValue (total - (cs0.dropWhile jsonWsChar).length))
      | _ =>
          match jsonValue total fuel cs with
          | Except.error e => Except.error e
          | Except.ok (v, afterVal) =>
              let acc := acc ++ [v]
              let afterValWs := afterVal.dropWhile jsonWsChar
              match afterValWs with
              | ',' :: next => jsonArrItems total fuel opened next acc
              | ']' :: next => Except.ok (PyVal.list acc, next)
              | _ => Except.error ("Expecting ',' delimiter: line 1 column " ++
                  natStr (total - afterValWs.length + 1) ++ " (char " ++
                  natStr (total - afterValWs.length) ++ ")")
end

/-- Model of Python's `json.loads` (see the section comment): parse one JSON
document; trailing non-space characters are CPython's `Extra data` error. -/
def jsonLoads (s : String) : Except String PyVal :=
  let cs := s.data
  match jsonValue cs.length (cs.length + 2) cs with
  | Except.error e => Except.error e
  | Except.ok (v, rest) =>
      match rest.dropWhile jsonWsChar with
      | [] => Except.ok v
      | rest2 => Except.error ("Extra data: line 1 column " ++
          natStr (cs.length - rest2.length + 1) ++ " (char " ++
          natStr (cs.length - rest2.length) ++ ")")

/-! ## `models.py` — `WorkflowStep.validate_evaluation_config` (lines 195-249)

The validator fires on every write to the `evaluation_config` attribute.
It is parameterised by `loads`, the behaviour of the Python standard
library's `json.loads` (external to this repository), and by `uuid`, the
fresh identifier `str(uuid4())` would produce for a condition that lacks a
`condition_id` (the code draws a fresh UUID per condition; the embedding
passes one identifier for all of them, which no theorem below depends on). -/

/-- The fallback configuration built at `models.py` lines 199, 205 and 208. -/
def defaultEvalConfig : PyVal :=
  PyVal.dict [("conditions", PyVal.list []), ("default_action", PyVal.str "continue"),
              ("maximum_jumps", PyVal.int 3)]

/-- The six operators accepted at `models.py` line 226. -/
def allowedOperators : List String :=
  ["equals", "not_equals", "greater_than", "less_than", "contains", "not_contains"]

/-- One iteration of the condition loop at `models.py` lines 217-228: a dict
condition is normalised (operator coerced to `"equals"` unless allowed), a
non-dict condition is dropped. -/
def normalizeCondition (uuid : String) : PyVal → Option PyVal
  | PyVal.dict kvs =>
      let op := pyStr (alistGetD kvs "operator" (PyVal.str "equals"))
      some (PyVal.dict
        [("condition_id", alistGetD kvs "condition_id" (PyVal.str uuid)),
         ("variable", PyVal.str (pyStr (alistGetD kvs "variable" (PyVal.str "")))),
         ("operator", PyVal.str (if op ∈ allowedOperators then op else "equals")),
         ("value", alistGetD kvs "value" (PyVal.str "")),
         ("target_step_index", alistGetD kvs "target_step_index" PyVal.none)])
  | _ => Option.none

/-- `models.py` lines 211-213: `conditions = value.get("conditions", [])`
coerced to `[]` unless it is a list. -/
def condList : PyVal → List PyVal
  | PyVal.list cs => cs
  | _ => []

/-- `models.py` lines 230-232: `default_action` kept only when it is
`"continue"` or `"end"`, else replaced by `"continue"` (a non-string value
is never in the allowed list, so it is replaced too). -/
def coerceDefaultAction : PyVal → PyVal
  | PyVal.str s => if s = "continue" || s = "end" then PyVal.str s else PyVal.str "continue"
  | _ => PyVal.str "continue"

/-- `models.py` lines 236-240: the `int(maximum_jumps)` conversion applied
to a non-`int` value — `3` when the conversion raises. -/
def convertMaximumJumps (m : PyVal) : PyVal :=
  match pyInt m with
  | Except.ok k => PyVal.int k
  | Except.error _ => PyVal.int 3

/-- `models.py` lines 234-243 continued: an `int` (in Python `bool` is an
`int`, see `isInstInt`) skips the conversion, everything else goes through
`convertMaximumJumps`; a negative result becomes `1`. -/
def coerceMaximumJumps (mj : PyVal) : PyVal :=
  let mj2 := match mj with
    | PyVal.int k => PyVal.int k
    | PyVal.bool b => PyVal.bool b
    | m => convertMaximumJumps m
  match mj2 with
  | PyVal.int k => if k < 0 then PyVal.int 1 else PyVal.int k
  | m => m

/-- `models.py` lines 210-249: normalisation applied once the value is known
not to be `None` or an unparseable string.  A non-dict falls back to the
default; a dict has its `conditions`, `default_action` and `maximum_jumps`
coerced.  Note line 235: a dict that lacks `maximum_jumps` gets `1`
(`value.get("maximum_jumps", 1)`), while the comment on that line says the
default was changed to 3. -/
def validateEvalDict (uuid : String) : PyVal → PyVal
  | PyVal.dict kvs =>
      PyVal.dict
        [("conditions", PyVal.list
            ((condList (alistGetD kvs "conditions" (PyVal.list []))).filterMap
              (normalizeCondition uuid))),
         ("default_action", coerceDefaultAction (alistGetD kvs "default_action" (PyVal.str "continue"))),
         ("maximum_jumps", coerceMaximumJumps (alistGetD kvs "maximum_jumps" (PyVal.int 1)))]
  | _ => defaultEvalConfig

/-- `models.py` lines 195-249, `validate_evaluation_config`: the SQLAlchemy
validator run on every assignment to `WorkflowStep.evaluation_config`.
`None` and strings that fail to parse as JSON become the default config;
parsed strings and direct values go through `validateEvalDict`. -/
def validate_evaluation_config (loads : String → Except String PyVal) (uuid : String) :
    PyVal → PyVal
  | PyVal.none => defaultEvalConfig
  | PyVal.str s =>
      match loads s with
      | Except.error _ => defaultEvalConfig
      | Except.ok v => validateEvalDict uuid v
  | v => validateEvalDict uuid v

/-! ### Well-formedness of a stored evaluation config (the property C9 claims) -/

/-- A stored condition record as C9 describes it: a dict carrying the five
fields, whose `variable` is a string and whose `operator` is one of the six
allowed names. -/
def wellFormedCondition (c : PyVal) : Bool :=
  match c with
  | PyVal.dict kvs =>
      alistHasKey kvs "condition_id" &&
      (match alistGet kvs "variable" with
        | some (PyVal.str _) => true
        | _ => false) &&
      (match alistGet kvs "operator" with
        | some (PyVal.str op) => op ∈ allowedOperators
        | _ => false) &&
      alistHasKey kvs "value" &&
      alistHasKey kvs "target_step_index"
  | _ => false

/-- A stored evaluation config as C9 describes it: a dict whose
`conditions` is a list of well-formed condition records, whose
`default_action` is `"continue"` or `"end"`, and whose `maximum_jumps` is a
non-negative Python integer (in Python a `bool` is an `int`; `False` is `0`
and `True` is `1`, both non-negative). -/
def wellFormedEvalConfig (v : PyVal) : Bool :=
  match v with
  | PyVal.dict kvs =>
      (match alistGet kvs "conditions" with
        | some (PyVal.list cs) => cs.all wellFormedCondition
        | _ => false) &&
      (match alistGet kvs "default_action" with
        | some (PyVal.str a) => a = "continue" || a = "end"
        | _ => false) &&
      (match alistGet kvs "maximum_jumps" with
        | some (PyVal.int k) => 0 ≤ k
        | some (PyVal.bool _) => true
        | _ => false)
  | _ => false

/-! ## `services/workflow_service.py` — data records and exceptions -/

/-- The exceptions `workflow_service.py` raises.  They are imported from
`exceptions`, a module of this repository that is not under `src/`; the
classes are modelled from the spec's §7 taxonomy.  `message` is the `str(e)`
the orchestrator stores on failure: for the classes raised with one message
argument it is that message; `ToolNotFoundError(tool_id)` is surfaced with
the missing id, `VariableValidationError(var_name, msg)` with both its
arguments; `valueError` stands for Python's built-in `ValueError` from tuple
unpacking. -/
inductive WSError where
  | invalidWorkflow (msg : String)
  | variableValidation (varName : String) (msg : String)
  | toolNotFound (toolId : String)
  | invalidStepConfiguration (msg : String)
  | valueError (msg : String)

/-- `str(e)` of a `WSError` (see `WSError`'s doc comment). -/
def WSError.message : WSError → String
  | WSError.invalidWorkflow m => m
  | WSError.variableValidation v m => v ++ ": " ++ m
  | WSError.toolNotFound tid => tid
  | WSError.invalidStepConfiguration m => m
  | WSError.valueError m => m

/-- One parameter of a tool signature, as `_execute_step` reads it
(`param.name`, `param.required`). -/
structure ToolParam where
  name : String
  required : Bool

/-- One output of a tool signature, as `_execute_step` reads it. -/
structure ToolOutput where
  name : String

/-- A tool signature (`tool.signature` in `_execute_step`). -/
structure ToolSig where
  parameters : List ToolParam
  outputs : List ToolOutput

/-- A `Tool` row, restricted to the fields `_execute_step` reads. -/
structure ToolRec where
  tool_id : String
  name : String
  signature : ToolSig

/-- A `WorkflowStep` row, restricted to the fields `validate_workflow` and
the execution loop read.  `evaluation_config` is carried (it is a stored
JSON column) but — as theorem C1's entry records — never read by the loop. -/
structure StepRec where
  step_id : String
  step_type : String
  tool_id : Option String
  parameter_mappings : List (String × String)
  output_mappings : List (String × String)
  sequence_number : Int
  evaluation_config : PyVal

/-- A `WorkflowVariable` row, restricted to the fields `validate_input_data`
reads. -/
structure VarRec where
  name : String
  io_type : String

/-- A `Workflow` row: its steps, declared variables (`workflow.variables`;
`variables` is a reserved word in Lean, hence `vars`), and the mutable
`status`/`error` columns the orchestrator owns. -/
structure WorkflowRec where
  steps : List StepRec
  vars : List VarRec
  status : String
  error : Option String

/-! ## `workflow_service.py` — `validate_workflow` (lines 526-545) -/

/-- Python `min` over a nonempty list given as head and tail. -/
def listMin (a : Int) : List Int → Int
  | [] => a
  | b :: t => listMin (min a b) t

/-- Python `max` over a nonempty list given as head and tail. -/
def listMax (a : Int) : List Int → Int
  | [] => a
  | b :: t => listMax (max a b) t

/-- The `sequence_number` column of each step, in list order. -/
def seqNumbers (steps : List StepRec) : List Int := steps.map (fun s => s.sequence_number)

/-- `workflow_service.py` lines 526-545, `validate_workflow`: reject an empty
step list, duplicated sequence numbers (`len(set(ns)) != len(ns)`), a
minimum other than 0, and a maximum other than `len(steps) - 1`; otherwise
return `True` (here `Except.ok ()`). -/
def validate_workflow (wf : WorkflowRec) : Except WSError Unit :=
  match wf.steps with
  | [] => Except.error (WSError.invalidWorkflow "Workflow must have at least one step")
  | s :: rest =>
      let ns := seqNumbers (s :: rest)
      if ¬ ns.Nodup then
        Except.error (WSError.invalidWorkflow "Duplicate sequence numbers found in workflow steps")
      else if listMin s.sequence_number (seqNumbers rest) ≠ 0 then
        Except.error (WSError.invalidWorkflow "Sequence numbers must start at 0")
      else if listMax s.sequence_number (seqNumbers rest) ≠ (ns.length : Int) - 1 then
        Except.error (WSError.invalidWorkflow "Sequence numbers must be consecutive")
      else Except.ok ()

/-- `workflow_service.py` lines 547-558, `validate_input_data`: build the
name-keyed dict of declared `io_type == 'input'` variables (first occurrence
of each name, as a Python dict comprehension keeps one entry per key) and
fail on the first name missing from the caller-supplied input map. -/
def validate_input_data (wf : WorkflowRec) (input : List (String × PyVal)) :
    Except WSError Unit :=
  let inputNames := ((wf.vars.filter (fun v => v.io_type = "input")).map
    (fun v => v.name)).eraseDups
  match inputNames.find? (fun n => ¬ alistHasKey input n) with
  | some n => Except.error (WSError.variableValidation n "Required input not provided")
  | Option.none => Except.ok ()

/-! ## `workflow_service.py` — `_execute_step` (lines 625-682) -/

/-- The ephemeral run context built at lines 577-581: the caller-supplied
input map, the accumulating `output` map, and the per-step raw output
records. -/
structure RunContext where
  input : List (String × PyVal)
  output : List (String × PyVal)
  step_outputs : List (String × List (String × PyVal))

/-- Split a character list at its first `'.'`, if any. -/
def splitFirstDot : List Char → Option (List Char × List Char)
  | [] => Option.none
  | c :: cs =>
      if c = '.' then some ([], cs)
      else
        match splitFirstDot cs with
        | some (a, b) => some (c :: a, b)
        | Option.none => Option.none

/-- `workflow_service.py` lines 651-658, the binding resolution inside
`_execute_step`: `"input.<name>"` (split on the first dot) is looked up in
`context["input"]` with `.get`, so a missing key yields `None`;
`"step.<id>.<output>"` (split on the first two dots) is looked up in
`context["step_outputs"]` with `.get(step_id, {}).get(output_name)`, so a
missing step or output also yields `None`; any other string is the value
itself.  A mapping that starts with `"step."` but has no further dot makes
the three-way unpacking at line 655 raise `ValueError`. -/
def resolveParamMapping (input : List (String × PyVal))
    (stepOutputs : List (String × List (String × PyVal))) (m : String) :
    Except WSError PyVal :=
  if "input.".data.isPrefixOf m.data then
    Except.ok (alistGetD input (String.mk (m.data.drop 6)) PyVal.none)
  else if "step.".data.isPrefixOf m.data then
    match splitFirstDot (m.data.drop 5) with
    | some (sid, out) =>
        Except.ok (alistGetD (alistGetD stepOutputs (String.mk sid) [])
          (String.mk out) PyVal.none)
    | Option.none =>
        Except.error (WSError.valueError "not enough values to unpack (expected 3, got 2)")
  else Except.ok (PyVal.str m)

/-- Resolve every entry of `parameter_mappings` in order (lines 648-661),
stopping at the first raised error; the loop's dict of resolved parameters
is built but — per the `TODO` at line 663 — never used, so only the raised
error is observable. -/
def resolveAllParams (ctx : RunContext) : List (String × String) → Except WSError Unit
  | [] => Except.ok ()
  | (_, mapping) :: rest =>
      match resolveParamMapping ctx.input ctx.step_outputs mapping with
      | Except.error e => Except.error e
      | Except.ok _ => resolveAllParams ctx rest

/-- The mock tool result built at lines 668-671:
`{output.name: f"Mock {output.name} for tool {tool.name}"}`. -/
def mockResult (tool : ToolRec) : List (String × PyVal) :=
  tool.signature.outputs.foldl
    (fun acc o => alistSet acc o.name
      (PyVal.str ("Mock " ++ o.name ++ " for tool " ++ tool.name)))
    []

/-- Python truthiness of the `tool_id` column (`step.tool_id` at line 627:
`None` and the empty string are falsy). -/
def toolIdTruthy : Option String → Bool
  | Option.none => false
  | some s => ¬ s.isEmpty

/-- `workflow_service.py` lines 625-682, `_execute_step`.  An `"ACTION"`
step with a truthy `tool_id` looks the tool up (first matching row),
validates its `parameter_mappings` against the signature, resolves each
mapping, and returns the mock result; an `"INPUT"` step returns
`{output_name: context["input"].get(input_name)}` over its
`output_mappings` — note the comprehension at lines 676-679 indexes the
input by the mapping's *value*; every other step type (including
`"EVALUATION"`, and an `"ACTION"` without a tool) raises
`InvalidStepConfigurationError(f"Unknown step type: {step.step_type}")`. -/
def _execute_step (tools : List ToolRec) (step : StepRec) (ctx : RunContext) :
    Except WSError (List (String × PyVal)) :=
  if step.step_type = "ACTION" ∧ toolIdTruthy step.tool_id then
    let tid := step.tool_id.getD ""
    match tools.find? (fun t => t.tool_id = tid) with
    | Option.none => Except.error (WSError.toolNotFound tid)
    | some tool =>
        let toolParamNames := tool.signature.parameters.map (fun p => p.name)
        match step.parameter_mappings.find? (fun pm => ¬ toolParamNames.contains pm.1) with
        | some pm =>
            Except.error (WSError.invalidStepConfiguration
              ("Parameter " ++ qm ++ pm.1 ++ qm ++ " not found in tool signature"))
        | Option.none =>
            match tool.signature.parameters.find?
                (fun p => p.required ∧ ¬ alistHasKey step.parameter_mappings p.name) with
            | some p =>
                Except.error (WSError.invalidStepConfiguration
                  ("Required parameter " ++ qm ++ p.name ++ qm ++ " not provided"))
            | Option.none =>
                match resolveAllParams ctx step.parameter_mappings with
                | Except.error e => Except.error e
                | Except.ok _ => Except.ok (mockResult tool)
  else if step.step_type = "INPUT" then
    Except.ok (step.output_mappings.foldl
      (fun acc ov => alistSet acc ov.1 (alistGetD ctx.input ov.2 PyVal.none)) [])
  else
    Except.error (WSError.invalidStepConfiguration ("Unknown step type: " ++ step.step_type))

/-! ## `workflow_service.py` — `execute_workflow` (lines 560-623) -/

/-- Lines 595-598: copy each mapped step output into `context["output"]`
(`if output_name in step_result: context["output"][var_name] = ...`). -/
def applyOutputMappings (step : StepRec) (stepResult : List (String × PyVal))
    (out : List (String × PyVal)) : List (String × PyVal) :=
  step.output_mappings.foldl
    (fun acc ov =>
      if alistHasKey stepResult ov.1 then
        alistSet acc ov.2 (alistGetD stepResult ov.1 PyVal.none)
      else acc)
    out

/-- Lines 589-598: the linear execution loop — every step in order, its raw
result recorded under `step_outputs[step.step_id]`, its `output_mappings`
applied; the first raised exception aborts the loop. -/
def runSteps (tools : List ToolRec) : List StepRec → RunContext → Except WSError RunContext
  | [], ctx => Except.ok ctx
  | step :: rest, ctx =>
      match _execute_step tools step ctx with
      | Except.error e => Except.error e
      | Except.ok stepResult =>
          runSteps tools rest
            { ctx with
              step_outputs := alistSet ctx.step_outputs step.step_id stepResult,
              output := applyOutputMappings step stepResult ctx.output }

/-- Stable insertion into a list sorted by `sequence_number` (ties keep the
earlier element first, as `ORDER BY sequence_number` does for the loaded
rows). -/
def insertBySeq (s : StepRec) : List StepRec → List StepRec
  | [] => [s]
  | t :: ts =>
      if t.sequence_number ≤ s.sequence_number then t :: insertBySeq s ts
      else s :: t :: ts

/-- Lines 583-586: the step list ordered by `sequence_number`. -/
def sortBySeq : List StepRec → List StepRec
  | [] => []
  | s :: rest => insertBySeq s (sortBySeq rest)

/-- The `WorkflowExecuteResponse` fields the claims observe (lines 605-610
and 617-623); `workflow_id` is the caller's argument echoed back and
`execution_time` is the constant `0.0`, so neither is carried. -/
structure ExecResponse where
  status : String
  output : List (String × PyVal)
  error : Option String

/-- What one `execute_workflow` call leaves behind: the workflow row's
`status` and `error` columns, and either the returned response or the
exception that escaped (validation errors are raised before the `try`
block, lines 565-573, and propagate to the caller). -/
structure ExecOutcome where
  workflowStatus : String
  workflowError : Option String
  result : Except WSError ExecResponse

/-- `workflow_service.py` lines 560-623, `execute_workflow`: validate the
structure, validate the inputs, set `status = "running"`, run the ordered
steps; a completed loop commits `status = "completed"` and returns the
output map, an exception from a step commits `status = "failed"` with
`error = str(e)` and returns a failed response with empty output.  A
validation error is raised before the status write, leaving `status` and
`error` untouched. -/
def execute_workflow (tools : List ToolRec) (wf : WorkflowRec)
    (input : List (String × PyVal)) : ExecOutcome :=
  match validate_workflow wf with
  | Except.error e => ⟨wf.status, wf.error, Except.error e⟩
  | Except.ok _ =>
      match validate_input_data wf input with
      | Except.error e => ⟨wf.status, wf.error, Except.error e⟩
      | Except.ok _ =>
          match runSteps tools (sortBySeq wf.steps) ⟨input, [], []⟩ with
          | Except.ok ctx =>
              ⟨"completed", wf.error, Except.ok ⟨"completed", ctx.output, Option.none⟩⟩
          | Except.error e =>
              ⟨"failed", some e.message, Except.ok ⟨"failed", [], some e.message⟩⟩

/-! ## `routers/tools.py` — `execute_llm` (lines 260-337) -/

/-- A prompt-template token as `execute_llm` reads it: `t['name']` and
`t['type']` (the field is spelled `ttype` because `type` is reserved in
Lean). -/
structure TemplateToken where
  name : String
  ttype : String

/-- Python `str.replace` on character lists: scan left to right, replace
each non-overlapping occurrence of `old` by `new`.  (Python's behaviour for
an empty `old` — interleaving `new` everywhere — is not modelled; every
pattern this development substitutes is a nonempty `{{name}}`
placeholder.) -/
def replaceChars (old new : List Char) : Nat → List Char → List Char
  | _, [] => []
  | 0, s => s
  | fuel+1, c :: cs =>
      if ¬ old.isEmpty ∧ old.isPrefixOf (c :: cs) then
        new ++ replaceChars old new fuel (cs.drop (old.length - 1))
      else
        c :: replaceChars old new fuel cs

/-- Python `str.replace` on strings.  Each replacement step consumes at
least one character, so fuel equal to the subject's length is enough. -/
def pyReplace (s old new : String) : String :=
  String.mk (replaceChars old.data new.data s.data.length s.data)

/-- The placeholder `execute_llm` substitutes for a string token `name`:
`f"{{{{{token_name}}}}}"`, i.e. `{{name}}`. -/
def placeholder (name : String) : String := "\x7b\x7b" ++ name ++ "\x7d\x7d"

/-- `routers/tools.py` lines 267-278: before anything else (in particular
before the `try` block whose body ends in the `ai_service.send_messages`
call), `execute_llm` walks the template's tokens in order and raises HTTP
400 for the first string token missing from `regular_variables` or file
token missing from `file_variables`.  The returned `String` is the HTTP
`detail`. -/
def validateRequiredTokens (regular : List (String × PyVal))
    (fileVars : List (String × String)) : List TemplateToken → Except String Unit
  | [] => Except.ok ()
  | t :: ts =>
      if t.ttype = "string" ∧ ¬ alistHasKey regular t.name then
        Except.error ("Missing required string token: " ++ t.name)
      else if t.ttype = "file" ∧ ¬ alistHasKey fileVars t.name then
        Except.error ("Missing required file token: " ++ t.name)
      else validateRequiredTokens regular fileVars ts

/-- `routers/tools.py` lines 285-291: for each token of type `"string"`, in
declared order, replace every occurrence of its placeholder in the user
message and (when one is present) the system message with
`str(regular_variables[token_name])`.  No other transformation — in
particular no joining of list values — is applied. -/
def substituteStringTokens (tokens : List TemplateToken)
    (regular : List (String × PyVal)) (userMsg : String) (sysMsg : Option String) :
    String × Option String :=
  tokens.foldl
    (fun acc t =>
      if t.ttype = "string" then
        let value := pyStr (alistGetD regular t.name PyVal.none)
        let ph := placeholder t.name
        (pyReplace acc.1 ph value, acc.2.map (fun sm => pyReplace sm ph value))
      else acc)
    (userMsg, sysMsg)

/-- A `PromptTemplate` row as `execute_llm` and `_get_llm_signature` read
it: its id, token list and output schema.  `execute_llm` accesses tokens as
`t['name']`/`t['type']` records (`TemplateToken`); `_get_llm_signature`
re-reads the same JSON column defensively as raw values, so the raw column
is carried too. -/
structure PromptTemplateRec where
  template_id : String
  user_message_template : String
  system_message_template : Option String
  tokens : List TemplateToken
  tokensRaw : List PyVal
  output_schema : PyVal

/-- `routers/tools.py` lines 263-291 up to the point the compiled messages
would be handed to the LLM client: template lookup (HTTP 404 detail
`"Template not found"`), required-token validation, then string-token
substitution.  File-token processing and the `send_messages` call consume
the `Except.ok` result and are external to the claims settled here, so the
pipeline is cut after substitution: an `Except.error` means the LLM is never
called. -/
def executeLLMPrepare (db : List PromptTemplateRec) (templateId : String)
    (regular : List (String × PyVal)) (fileVars : List (String × String)) :
    Except String (String × Option String) :=
  match db.find? (fun t => t.template_id = templateId) with
  | Option.none => Except.error "Template not found"
  | some tpl =>
      match validateRequiredTokens regular fileVars tpl.tokens with
      | Except.error d => Except.error d
      | Except.ok _ =>
          Except.ok (substituteStringTokens tpl.tokens regular
            tpl.user_message_template tpl.system_message_template)

/-- `routers/tools.py` lines 317-328: once the LLM client has returned
`raw`, an output schema whose `"type"` is `"object"` makes `execute_llm`
parse `raw` with `json.loads`; a parse failure raises HTTP 422 with detail
`f"LLM response was not valid JSON: {str(e)}"`, where `e` is the
`JSONDecodeError` — the raw text itself is only `print`ed to the server
log.  Any other schema type returns `raw` unchanged.  (A schema without a
`"type"` key would raise `KeyError`, whose `str` is the quoted key.) -/
def processLLMResponse (loads : String → Except String PyVal) (output_schema : PyVal)
    (raw : String) : Except String PyVal :=
  match output_schema with
  | PyVal.dict kvs =>
      match alistGet kvs "type" with
      | Option.none => Except.error (qm ++ "type" ++ qm)
      | some t =>
          match t with
          | PyVal.str "object" =>
              (match loads raw with
                | Except.ok v => Except.ok v
                | Except.error msg =>
                    Except.error ("LLM response was not valid JSON: " ++ msg))
          | _ => Except.ok (PyVal.str raw)
  | _ => Except.error "output_schema is not subscriptable"

/-- Python `needle in haystack` on strings (substring test). -/
def containsSubChars (needle : List Char) : List Char → Bool
  | [] => needle.isEmpty
  | c :: cs => needle.isPrefixOf (c :: cs) || containsSubChars needle cs

/-- Python `needle in haystack` on strings. -/
def strContainsSub (hay needle : String) : Bool :=
  containsSubChars needle.data hay.data

/-! ## `workflow_service.py` — `_get_llm_signature` (lines 684-794) -/

/-- Python `x == "lit"` where `x` is an arbitrary value: true exactly for
the equal string. -/
def pyEqStr (v : PyVal) (lit : String) : Bool :=
  match v with
  | PyVal.str s => s = lit
  | _ => false

/-- Lines 709-737: one token of the template's raw `tokens` column turned
into a parameter record, or skipped (`continue`) when it is not a dict or
lacks a `name`. -/
def signatureParam (token : PyVal) : Option PyVal :=
  match token with
  | PyVal.dict kvs =>
      if ¬ alistHasKey kvs "name" then Option.none
      else
        let name := alistGetD kvs "name" PyVal.none
        let tokenType := alistGetD kvs "type" (PyVal.str "string")
        let base :=
          [("name", name),
           ("type", PyVal.str (if pyEqStr tokenType "string" then "string" else "file")),
           ("is_array", PyVal.bool false),
           ("description", alistGetD kvs "description" (PyVal.str ""))]
        let base := if pyEqStr tokenType "file" ∧ alistHasKey kvs "format" then
            base ++ [("format", alistGetD kvs "format" PyVal.none)] else base
        let base := if pyEqStr tokenType "file" ∧ alistHasKey kvs "content_types" then
            base ++ [("content_types", alistGetD kvs "content_types" PyVal.none)] else base
        some (PyVal.dict
          [("name", name),
           ("description", PyVal.str
              (if pyEqStr tokenType "string" then
                "Value for \x7b\x7b" ++ pyStr name ++ "\x7d\x7d in the prompt"
              else
                "File content for <<file:" ++ pyStr name ++ ">> in the prompt")),
           ("schema", PyVal.dict base),
           ("required", alistGetD kvs "required" (PyVal.bool true))])
  | _ => Option.none

/-- Lines 739-789: the outputs list derived from the template's
`output_schema`.  A non-dict schema yields no outputs; an `object`-typed
schema **with a `fields` key** yields the single output `response` carrying
the full schema; every other case (including an `object`-typed schema
without `fields`) yields the single output `response` carrying a freshly
built `{name, type, is_array, description}` schema. -/
def signatureOutputs (output_schema : PyVal) : List PyVal :=
  match output_schema with
  | PyVal.dict kvs =>
      let outputType := alistGetD kvs "type" (PyVal.str "string")
      if pyEqStr outputType "object" ∧ alistHasKey kvs "fields" then
        [PyVal.dict
          [("name", PyVal.str "response"),
           ("description", alistGetD kvs "description" (PyVal.str "Complete output object")),
           ("schema", PyVal.dict kvs)]]
      else
        [PyVal.dict
          [("name", PyVal.str "response"),
           ("description", alistGetD kvs "description" (PyVal.str "LLM response")),
           ("schema", PyVal.dict
              [("name", PyVal.str "response"),
               ("type", outputType),
               ("is_array", alistGetD kvs "is_array" (PyVal.bool false)),
               ("description", alistGetD kvs "description" (PyVal.str ""))])]]
  | _ => []

/-- `workflow_service.py` lines 684-794, `_get_llm_signature`: look the
template up by id; a missing template yields the empty signature
`{'parameters': [], 'outputs': []}` (and no exception — the function only
logs); otherwise the tokens become parameters and the output schema becomes
outputs as above.  A non-dict `output_schema` returns the parameters with
empty outputs (lines 743-745). -/
def _get_llm_signature (db : List PromptTemplateRec) (prompt_template_id : String) : PyVal :=
  match db.find? (fun t => t.template_id = prompt_template_id) with
  | Option.none => PyVal.dict [("parameters", PyVal.list []), ("outputs", PyVal.list [])]
  | some tpl =>
      let parameters := tpl.tokensRaw.filterMap signatureParam
      PyVal.dict [("parameters", PyVal.list parameters),
                  ("outputs", PyVal.list (signatureOutputs tpl.output_schema))]

/-- The `outputs` entry of a signature dict, for stating theorems. -/
def sigOutputs (sig : PyVal) : Option PyVal :=
  match sig with
  | PyVal.dict kvs => alistGet kvs "outputs"
  | _ => Option.none

/-! ## The spec's acceptance condition for step numbering (for claim C3)

C3 is a refinement claim: it says `validate_workflow` accepts exactly the
step lists whose sequence numbers are dense.  The following definition is
written from the claim's words — "the sequence_numbers of its steps form
the dense set `{0,...,N-1}` (no gaps, no duplicates)" — and is compared
against the embedded `validate_workflow`. -/

/-- The claim's condition on a list of sequence numbers: no duplicates,
every number in `{0,...,N-1}`, and every element of `{0,...,N-1}`
present. -/
def formsDenseRange (ns : List Int) : Bool :=
  ns.Nodup &&
  ns.all (fun n => 0 ≤ n ∧ n < (ns.length : Int)) &&
  (List.range ns.length).all (fun i => (i : Int) ∈ ns)

/-! ## Concrete fixtures used by the counterexamples and witnesses -/

/-- The evaluation config of the spec's Scenario C: one always-matching
condition jumping back to step 0, `maximum_jumps` 2, `default_action`
`"end"`. -/
def scenarioCConfig : PyVal :=
  PyVal.dict
    [("conditions", PyVal.list
        [PyVal.dict
          [("condition_id", PyVal.str "c1"), ("variable", PyVal.str "score"),
           ("operator", PyVal.str "greater_than"), ("value", PyVal.int 50),
           ("target_step_index", PyVal.int 0)]]),
     ("default_action", PyVal.str "end"), ("maximum_jumps", PyVal.int 2)]

/-- A workflow whose single step is the EVALUATION step of Scenario C. -/
def wfEval : WorkflowRec :=
  ⟨[⟨"s1", "EVALUATION", Option.none, [], [], 0, scenarioCConfig⟩], [], "draft", Option.none⟩

/-- The spec's Scenario A workflow: one INPUT step with
`output_mappings = {"echo": "greeting"}`. -/
def wfInput : WorkflowRec :=
  ⟨[⟨"s1", "INPUT", Option.none, [], [("echo", "greeting")], 0, PyVal.none⟩],
   [], "draft", Option.none⟩

/-- A workflow with no steps. -/
def wfEmpty : WorkflowRec := ⟨[], [], "draft", Option.none⟩

/-- A workflow whose two steps carry sequence numbers 0 and 2 (a gap). -/
def wfGap : WorkflowRec :=
  ⟨[⟨"a", "INPUT", Option.none, [], [], 0, PyVal.none⟩,
    ⟨"b", "INPUT", Option.none, [], [], 2, PyVal.none⟩], [], "draft", Option.none⟩

/-- A prompt template whose `output_schema` has type `object` but no
`fields` key. -/
def tplNoFields : PromptTemplateRec :=
  ⟨"t0", "", Option.none, [], [], PyVal.dict [("type", PyVal.str "object")]⟩

/-- A prompt template whose `output_schema` has type `object` and a
`fields` key. -/
def tplFields : PromptTemplateRec :=
  ⟨"t1", "", Option.none, [], [],
   PyVal.dict
     [("type", PyVal.str "object"),
      ("description", PyVal.str "Complete answer"),
      ("fields", PyVal.dict [("answer", PyVal.dict [("type", PyVal.str "string")])])]⟩

/-! ## Helper lemmas -/

theorem listMin_le (a : Int) (l : List Int) :
    listMin a l ≤ a ∧ ∀ x ∈ l, listMin a l ≤ x := by
  induction l generalizing a with
  | nil => exact ⟨le_refl a, by simp⟩
  | cons b t ih =>
    have h := ih (min a b)
    refine ⟨le_trans h.1 (min_le_left a b), ?_⟩
    intro x hx
    rcases List.mem_cons.mp hx with rfl | hx
    · exact le_trans h.1 (min_le_right a x)
    · exact h.2 x hx

theorem listMin_mem (a : Int) (l : List Int) :
    listMin a l = a ∨ listMin a l ∈ l := by
  induction l generalizing a with
  | nil => exact Or.inl rfl
  | cons b t ih =>
    rcases ih (min a b) with h | h
    · rcases le_total a b with hab | hab
      · exact Or.inl (by rw [listMin, h, min_eq_left hab])
      · exact Or.inr (by rw [listMin, h, min_eq_right hab]; exact List.mem_cons_self b t)
    · exact Or.inr (List.mem_cons_of_mem b h)

theorem listMax_ge (a : Int) (l : List Int) :
    a ≤ listMax a l ∧ ∀ x ∈ l, x ≤ listMax a l := by
  induction l generalizing a with
  | nil => exact ⟨le_refl a, by simp⟩
  | cons b t ih =>
    have h := ih (max a b)
    refine ⟨le_trans (le_max_left a b) h.1, ?_⟩
    intro x hx
    rcases List.mem_cons.mp hx with rfl | hx
    · exact le_trans (le_max_right a x) h.1
    · exact h.2 x hx

theorem listMax_mem (a : Int) (l : List Int) :
    listMax a l = a ∨ listMax a l ∈ l := by
  induction l generalizing a with
  | nil => exact Or.inl rfl
  | cons b t ih =>
    rcases ih (max a b) with h | h
    · rcases le_total a b with hab | hab
      · exact Or.inr (by rw [listMax, h, max_eq_right hab]; exact List.mem_cons_self b t)
      · exact Or.inl (by rw [listMax, h, max_eq_left hab])
    · exact Or.inr (List.mem_cons_of_mem b h)

/-- Pigeonhole: `n` distinct integers between `0` and `n-1` cover the whole
range. -/
theorem dense_of_bounds (ns : List Int) (hnd : ns.Nodup) (h0 : ∀ x ∈ ns, 0 ≤ x)
    (h1 : ∀ x ∈ ns, x ≤ (ns.length : Int) - 1) :
    ∀ i : Nat, i < ns.length → (i : Int) ∈ ns := by
  intro i hi
  have hsub : ns.toFinset ⊆ Finset.Icc 0 ((ns.length : Int) - 1) := by
    intro x hx
    have hx2 := List.mem_toFinset.mp hx
    exact Finset.mem_Icc.mpr ⟨h0 x hx2, h1 x hx2⟩
  have hcard : ns.toFinset.card = ns.length := List.toFinset_card_of_nodup hnd
  have hicc : (Finset.Icc 0 ((ns.length : Int) - 1)).card = ns.length := by
    rw [Int.card_Icc]
    have h2 : ((ns.length : Int) - 1 + 1 - 0) = (ns.length : Int) := by ring
    rw [h2, Int.toNat_natCast]
  have heq : ns.toFinset = Finset.Icc 0 ((ns.length : Int) - 1) :=
    Finset.eq_of_subset_of_card_le hsub (by rw [hcard, hicc])
  have hmem : (i : Int) ∈ Finset.Icc 0 ((ns.length : Int) - 1) := by
    refine Finset.mem_Icc.mpr ⟨by positivity, by omega⟩
  rw [← heq] at hmem
  exact List.mem_toFinset.mp hmem

theorem formsDenseRange_iff (ns : List Int) :
    formsDenseRange ns = true ↔
      (ns.Nodup ∧ (∀ n ∈ ns, 0 ≤ n ∧ n < (ns.length : Int)) ∧
       (∀ i : Nat, i < ns.length → (i : Int) ∈ ns)) := by
  simp [formsDenseRange, List.all_eq_true, List.mem_range, and_assoc]

/-- `validate_workflow` succeeds on a nonempty step list exactly when the
three checked conditions hold. -/
theorem validate_workflow_cons_ok_iff (wf : WorkflowRec) (s : StepRec) (rest : List StepRec)
    (hsteps : wf.steps = s :: rest) :
    validate_workflow wf = Except.ok () ↔
      ((seqNumbers (s :: rest)).Nodup ∧ listMin s.sequence_number (seqNumbers rest) = 0 ∧
       listMax s.sequence_number (seqNumbers rest) = ((seqNumbers (s :: rest)).length : Int) - 1) := by
  rw [validate_workflow, hsteps]
  dsimp only
  by_cases h1 : (seqNumbers (s :: rest)).Nodup
  · rw [if_neg (not_not_intro h1)]
    by_cases h2 : listMin s.sequence_number (seqNumbers rest) = 0
    · rw [if_neg (not_not_intro h2)]
      by_cases h3 : listMax s.sequence_number (seqNumbers rest) =
          ((seqNumbers (s :: rest)).length : Int) - 1
      · rw [if_neg (not_not_intro h3)]
        exact iff_of_true rfl ⟨h1, h2, h3⟩
      · rw [if_pos h3]
        exact iff_of_false (by simp) (fun hc => h3 hc.2.2)
    · rw [if_pos h2]
      exact iff_of_false (by simp) (fun hc => h2 hc.2.1)
  · rw [if_pos h1]
    exact iff_of_false (by simp) (fun hc => h1 hc.1)

/-- Every `validate_workflow` failure is an `InvalidWorkflowError`. -/
theorem validate_workflow_shape (wf : WorkflowRec) :
    validate_workflow wf = Except.ok () ∨
      ∃ m, validate_workflow wf = Except.error (WSError.invalidWorkflow m) := by
  cases hsteps : wf.steps with
  | nil =>
    rw [validate_workflow, hsteps]
    exact Or.inr ⟨_, rfl⟩
  | cons s rest =>
    rw [validate_workflow, hsteps]
    dsimp only
    split_ifs <;> first
      | exact Or.inl rfl
      | exact Or.inr ⟨_, rfl⟩

/-- The acceptance condition of `validate_workflow` on a nonempty step list
is exactly density of the sequence numbers. -/
theorem validate_workflow_ok_iff_dense (wf : WorkflowRec) (hne : wf.steps ≠ []) :
    validate_workflow wf = Except.ok () ↔ formsDenseRange (seqNumbers wf.steps) = true := by
  cases hsteps : wf.steps with
  | nil => exact absurd hsteps hne
  | cons s rest =>
    rw [validate_workflow_cons_ok_iff wf s rest hsteps]
    have hns : seqNumbers (s :: rest) = s.sequence_number :: seqNumbers rest := rfl
    have hlen : (seqNumbers (s :: rest)).length = rest.length + 1 := by simp [seqNumbers]
    have hmem_iff : ∀ x, x ∈ seqNumbers (s :: rest) ↔
        (x = s.sequence_number ∨ x ∈ seqNumbers rest) := by
      intro x; rw [hns, List.mem_cons]
    constructor
    · rintro ⟨hnd, hmin, hmax⟩
      rw [formsDenseRange_iff]
      have hbound : ∀ n ∈ seqNumbers (s :: rest),
          0 ≤ n ∧ n < ((seqNumbers (s :: rest)).length : Int) := by
        intro n hn
        have hge : listMin s.sequence_number (seqNumbers rest) ≤ n := by
          rcases (hmem_iff n).mp hn with h0 | h0
          · rw [h0]; exact (listMin_le _ _).1
          · exact (listMin_le _ _).2 n h0
        have hle : n ≤ listMax s.sequence_number (seqNumbers rest) := by
          rcases (hmem_iff n).mp hn with h0 | h0
          · rw [h0]; exact (listMax_ge _ _).1
          · exact (listMax_ge _ _).2 n h0
        rw [hmin] at hge
        rw [hmax] at hle
        exact ⟨hge, by omega⟩
      refine ⟨hnd, hbound, ?_⟩
      exact dense_of_bounds _ hnd (fun x hx => (hbound x hx).1)
        (fun x hx => by have := (hbound x hx).2; omega)
    · intro hd
      obtain ⟨hnd, hbound, hcover⟩ := (formsDenseRange_iff _).mp hd
      have hminmem : listMin s.sequence_number (seqNumbers rest) ∈ seqNumbers (s :: rest) := by
        rcases listMin_mem s.sequence_number (seqNumbers rest) with h | h
        · rw [h, hns]; exact List.mem_cons_self _ _
        · rw [hns]; exact List.mem_cons_of_mem _ h
      have hmaxmem : listMax s.sequence_number (seqNumbers rest) ∈ seqNumbers (s :: rest) := by
        rcases listMax_mem s.sequence_number (seqNumbers rest) with h | h
        · rw [h, hns]; exact List.mem_cons_self _ _
        · rw [hns]; exact List.mem_cons_of_mem _ h
      have h0mem : (0 : Int) ∈ seqNumbers (s :: rest) := by
        have := hcover 0 (by rw [hlen]; omega)
        simpa using this
      have hLmem : ((rest.length : Nat) : Int) ∈ seqNumbers (s :: rest) :=
        hcover rest.length (by rw [hlen]; omega)
      refine ⟨hnd, ?_, ?_⟩
      · have hminle : listMin s.sequence_number (seqNumbers rest) ≤ 0 := by
          rcases (hmem_iff 0).mp h0mem with h0 | h0
          · rw [← h0]; exact (listMin_le _ _).1
          · exact (listMin_le _ _).2 0 h0
        have hminge : 0 ≤ listMin s.sequence_number (seqNumbers rest) :=
          (hbound _ hminmem).1
        omega
      · have hmaxge : ((rest.length : Nat) : Int) ≤
            listMax s.sequence_number (seqNumbers rest) := by
          rcases (hmem_iff _).mp hLmem with h0 | h0
          · rw [h0]; exact (listMax_ge _ _).1
          · exact (listMax_ge _ _).2 _ h0
        have hmaxlt : listMax s.sequence_number (seqNumbers rest) <
            ((seqNumbers (s :: rest)).length : Int) := (hbound _ hmaxmem).2
        rw [hlen] at hmaxlt ⊢
        push_cast at hmaxlt ⊢
        omega

/-- A validation failure leaves the workflow row untouched and is raised to
the caller (the status write at line 571 comes after both validations). -/
theorem execute_workflow_validation_error (wf : WorkflowRec) (e : WSError)
    (tools : List ToolRec) (input : List (String × PyVal))
    (h : validate_workflow wf = Except.error e) :
    (execute_workflow tools wf input).workflowStatus = wf.status ∧
    (execute_workflow tools wf input).workflowError = wf.error ∧
    (execute_workflow tools wf input).result = Except.error e := by
  rw [execute_workflow, h]
  exact ⟨rfl, rfl, rfl⟩

theorem splitFirstDot_no_dot (sid : List Char) (rest : List Char)
    (h : sid.contains '.' = false) :
    splitFirstDot (sid ++ '.' :: rest) = some (sid, rest) := by
  induction sid with
  | nil => simp [splitFirstDot]
  | cons c cs ih =>
      rw [List.contains_cons] at h
      have hc : ¬ c = '.' := by
        intro hcc
        rw [hcc] at h
        simp at h
      have hcs : cs.contains '.' = false := by
        rcases Bool.or_eq_false_iff.mp h with ⟨h1, h2⟩
        exact h2
      rw [List.cons_append, splitFirstDot, if_neg hc, ih hcs]

theorem strMk_data (s : String) : String.mk s.data = s := rfl

/-- Every condition record `normalizeCondition` emits is well-formed. -/
theorem wf_normalizeCondition (uuid : String) (c c2 : PyVal)
    (h : normalizeCondition uuid c = some c2) : wellFormedCondition c2 = true := by
  cases c with
  | dict kvs =>
      rw [normalizeCondition] at h
      injection h with h2
      rw [← h2]
      by_cases hop : pyStr (alistGetD kvs "operator" (PyVal.str "equals")) ∈ allowedOperators
      · rw [if_pos hop]
        simp [wellFormedCondition, alistGet, alistHasKey, hop]
      · rw [if_neg hop]
        simp [wellFormedCondition, alistGet, alistHasKey, allowedOperators]
  | none => exact absurd h (by simp [normalizeCondition])
  | bool b => exact absurd h (by simp [normalizeCondition])
  | int n => exact absurd h (by simp [normalizeCondition])
  | str s => exact absurd h (by simp [normalizeCondition])
  | list xs => exact absurd h (by simp [normalizeCondition])

theorem coerceDefaultAction_shape (v : PyVal) :
    coerceDefaultAction v = PyVal.str "continue" ∨ coerceDefaultAction v = PyVal.str "end" := by
  cases v with
  | str s =>
      rw [coerceDefaultAction]
      split_ifs with h
      · simp only [Bool.or_eq_true, decide_eq_true_eq] at h
        rcases h with h1 | h1
        · exact Or.inl (by rw [h1])
        · exact Or.inr (by rw [h1])
      · exact Or.inl rfl
  | none => exact Or.inl rfl
  | bool b => exact Or.inl rfl
  | int n => exact Or.inl rfl
  | list xs => exact Or.inl rfl
  | dict kvs => exact Or.inl rfl

theorem coerceMaximumJumps_shape (v : PyVal) :
    (∃ k : Int, coerceMaximumJumps v = PyVal.int k ∧ 0 ≤ k) ∨
    (∃ b : Bool, coerceMaximumJumps v = PyVal.bool b) := by
  cases v with
  | int k =>
      rcases lt_or_ge k 0 with hk | hk
      · refine Or.inl ⟨1, ?_, by omega⟩
        show (if k < 0 then PyVal.int 1 else PyVal.int k) = PyVal.int 1
        exact if_pos hk
      · refine Or.inl ⟨k, ?_, by omega⟩
        show (if k < 0 then PyVal.int 1 else PyVal.int k) = PyVal.int k
        exact if_neg (by omega)
  | bool b => exact Or.inr ⟨b, rfl⟩
  | none => exact Or.inl ⟨3, rfl, by omega⟩
  | str s =>
      cases hp : pyInt (PyVal.str s) with
      | ok k =>
          have hcv : convertMaximumJumps (PyVal.str s) = PyVal.int k := by
            rw [convertMaximumJumps, hp]
          rcases lt_or_ge k 0 with hk | hk
          · refine Or.inl ⟨1, ?_, by omega⟩
            show (match convertMaximumJumps (PyVal.str s) with
              | PyVal.int k => if k < 0 then PyVal.int 1 else PyVal.int k
              | m => m) = PyVal.int 1
            rw [hcv]
            exact if_pos hk
          · refine Or.inl ⟨k, ?_, by omega⟩
            show (match convertMaximumJumps (PyVal.str s) with
              | PyVal.int k => if k < 0 then PyVal.int 1 else PyVal.int k
              | m => m) = PyVal.int k
            rw [hcv]
            exact if_neg (by omega)
      | error u =>
          have hcv : convertMaximumJumps (PyVal.str s) = PyVal.int 3 := by
            rw [convertMaximumJumps, hp]
          refine Or.inl ⟨3, ?_, by omega⟩
          show (match convertMaximumJumps (PyVal.str s) with
            | PyVal.int k => if k < 0 then PyVal.int 1 else PyVal.int k
            | m => m) = PyVal.int 3
          rw [hcv]
          exact if_neg (by omega)
  | list xs => exact Or.inl ⟨3, rfl, by omega⟩
  | dict kvs => exact Or.inl ⟨3, rfl, by omega⟩

theorem wellFormedEvalConfig_build (L : List PyVal) (da mj : PyVal)
    (hL : L.all wellFormedCondition = true)
    (hda : da = PyVal.str "continue" ∨ da = PyVal.str "end")
    (hmj : (∃ k : Int, mj = PyVal.int k ∧ 0 ≤ k) ∨ ∃ b : Bool, mj = PyVal.bool b) :
    wellFormedEvalConfig (PyVal.dict
      [("conditions", PyVal.list L), ("default_action", da), ("maximum_jumps", mj)]) = true := by
  rcases hmj with ⟨k, h2, hk⟩ | ⟨b, h2⟩
  · rcases hda with h | h <;> rw [h, h2] <;> simp [wellFormedEvalConfig, alistGet, hL, hk]
  · rcases hda with h | h <;> rw [h, h2] <;> simp [wellFormedEvalConfig, alistGet, hL]

theorem wf_validateEvalDict (uuid : String) (v : PyVal) :
    wellFormedEvalConfig (validateEvalDict uuid v) = true := by
  cases v with
  | dict kvs =>
      rw [validateEvalDict]
      apply wellFormedEvalConfig_build
      · rw [List.all_eq_true]
        intro c2 hc2
        obtain ⟨c, hc, hcn⟩ := List.mem_filterMap.mp hc2
        exact wf_normalizeCondition uuid c c2 hcn
      · exact coerceDefaultAction_shape _
      · exact coerceMaximumJumps_shape _
  | none => rfl
  | bool b => rfl
  | int n => rfl
  | str s => rfl
  | list xs => rfl

theorem validateRequiredTokens_ok_iff (regular : List (String × PyVal))
    (fileVars : List (String × String)) (tokens : List TemplateToken) :
    validateRequiredTokens regular fileVars tokens = Except.ok () ↔
      ∀ t ∈ tokens,
        (t.ttype = "string" → alistHasKey regular t.name = true) ∧
        (t.ttype = "file" → alistHasKey fileVars t.name = true) := by
  induction tokens with
  | nil => simp [validateRequiredTokens]
  | cons t ts ih =>
      rw [validateRequiredTokens]
      by_cases h1 : t.ttype = "string" ∧ ¬ alistHasKey regular t.name = true
      · rw [if_pos h1]
        refine iff_of_false (by simp) ?_
        intro hall
        exact h1.2 ((hall t (List.mem_cons_self _ _)).1 h1.1)
      · rw [if_neg h1]
        by_cases h2 : t.ttype = "file" ∧ ¬ alistHasKey fileVars t.name = true
        · rw [if_pos h2]
          refine iff_of_false (by simp) ?_
          intro hall
          exact h2.2 ((hall t (List.mem_cons_self _ _)).2 h2.1)
        · rw [if_neg h2]
          rw [ih]
          constructor
          · intro hall t2 ht2
            rcases List.mem_cons.mp ht2 with rfl | ht2
            · push_neg at h1 h2
              exact ⟨fun hs => h1 hs, fun hf => h2 hf⟩
            · exact hall t2 ht2
          · intro hall t2 ht2
            exact hall t2 (List.mem_cons_of_mem t ht2)

theorem validateRequiredTokens_missing_string (name : String)
    (regular : List (String × PyVal)) (fileVars : List (String × String))
    (ts : List TemplateToken) (h : alistHasKey regular name = false) :
    validateRequiredTokens regular fileVars (⟨name, "string"⟩ :: ts) =
      Except.error ("Missing required string token: " ++ name) := by
  rw [validateRequiredTokens, if_pos ⟨rfl, by rw [h]; exact Bool.false_ne_true⟩]

/-! ## Claim theorems -/

/-- C1: the claim says an EVALUATION step's jump path is followed at most
`maximum_jumps` times before `default_action` is forced, so a
single-EVALUATION-step workflow with an always-matching self-jump condition
terminates normally in at most `k+1` evaluations.  The as-built loop
(lines 589-598) has no EVALUATION handling at all: `_execute_step` raises
`InvalidStepConfigurationError("Unknown step type: EVALUATION")` on the
first evaluation, and the run is marked `failed` — it terminates, but by
failing rather than by forcing `default_action`.  This theorem evaluates
the embedded engine on exactly that workflow (the spec's Scenario C
configuration with `maximum_jumps = 2`). -/
theorem evaluation_step_linear_loop_fails :
    (execute_workflow [] wfEval [("score", PyVal.int 90)]).workflowStatus = "failed" ∧
    (execute_workflow [] wfEval [("score", PyVal.int 90)]).workflowError =
      some "Unknown step type: EVALUATION" ∧
    (execute_workflow [] wfEval [("score", PyVal.int 90)]).result =
      Except.ok ⟨"failed", [], some "Unknown step type: EVALUATION"⟩ :=
  ⟨rfl, rfl, rfl⟩

/-- C2 counterexample: the claim says an INPUT step copies the
caller-supplied input stored under the mapping's *key* (`"echo"`), so
Scenario A (`output_mappings = {"echo": "greeting"}`, input
`{"echo": "hi"}`) binds `greeting` to `"hi"`.  The comprehension at lines
676-679 indexes `context["input"]` by the mapping's *value* instead, so the
run completes but binds `greeting` to `None`, not `"hi"`. -/
theorem scenarioA_binds_greeting_to_null :
    (execute_workflow [] wfInput [("echo", PyVal.str "hi")]).result =
      Except.ok ⟨"completed", [("greeting", PyVal.none)], Option.none⟩ ∧
    PyVal.none ≠ PyVal.str "hi" :=
  ⟨rfl, by simp⟩

/-- C2 amended: a single-INPUT-step workflow with
`output_mappings = {o: v}` completes with the output variable `v` bound to
`context.input[v]` — the mapping's value is used both as the input key and
as the variable name, and a missing key passes through as `None`; Scenario
A's binding `greeting == "hi"` requires the input `{"greeting": "hi"}`. -/
theorem input_step_semantics (o v sid : String) (input : List (String × PyVal)) :
    (execute_workflow []
      ⟨[⟨sid, "INPUT", Option.none, [], [(o, v)], 0, PyVal.none⟩], [], "draft", Option.none⟩
      input).workflowStatus = "completed" ∧
    (execute_workflow []
      ⟨[⟨sid, "INPUT", Option.none, [], [(o, v)], 0, PyVal.none⟩], [], "draft", Option.none⟩
      input).result =
      Except.ok ⟨"completed", [(v, alistGetD input v PyVal.none)], Option.none⟩ ∧
    (execute_workflow [] wfInput [("greeting", PyVal.str "hi")]).result =
      Except.ok ⟨"completed", [("greeting", PyVal.str "hi")], Option.none⟩ := by
  refine ⟨?_, ?_, rfl⟩ <;>
    simp [execute_workflow, validate_workflow, validate_input_data, runSteps, _execute_step,
      sortBySeq, insertBySeq, applyOutputMappings, alistSet, alistGetD, alistGet, alistHasKey,
      seqNumbers, listMin, listMax, toolIdTruthy, List.eraseDups, List.find?]

/-- C3 counterexample: the claim says validation accepts the step list
exactly when its sequence numbers form `{0,...,N-1}`.  For the empty
workflow the condition holds vacuously (`N = 0`), yet `validate_workflow`
rejects it with `"Workflow must have at least one step"`, so the
biconditional fails at `N = 0`. -/
theorem empty_workflow_dense_but_rejected :
    validate_workflow wfEmpty =
      Except.error (WSError.invalidWorkflow "Workflow must have at least one step") ∧
    formsDenseRange (seqNumbers wfEmpty.steps) = true :=
  ⟨rfl, rfl⟩

/-- C3 amended: for a NON-EMPTY step list, validation accepts exactly the
dense sequence numberings `{0,...,N-1}`; every validation failure is an
`InvalidWorkflowError` raised before any side effect — the workflow's
`status` and `error` columns are untouched and the error propagates to the
caller, so no run starts. -/
theorem validate_accepts_exactly_dense (wf : WorkflowRec) :
    (wf.steps ≠ [] →
      (validate_workflow wf = Except.ok () ↔
        formsDenseRange (seqNumbers wf.steps) = true)) ∧
    (∀ (e : WSError) (tools : List ToolRec) (input : List (String × PyVal)),
      validate_workflow wf = Except.error e →
      (∃ m, e = WSError.invalidWorkflow m) ∧
      (execute_workflow tools wf input).workflowStatus = wf.status ∧
      (execute_workflow tools wf input).workflowError = wf.error ∧
      (execute_workflow tools wf input).result = Except.error e) := by
  constructor
  · intro hne
    exact validate_workflow_ok_iff_dense wf hne
  · intro e tools input h
    rcases validate_workflow_shape wf with hok | ⟨m, hm⟩
    · rw [h] at hok
      cases hok
    · rw [h] at hm
      injection hm with hme
      exact ⟨⟨m, hme⟩, execute_workflow_validation_error wf e tools input h⟩

/-- C3 witness: the amended theorem applied to the concrete workflow whose
steps carry sequence numbers 0 and 2. -/
theorem validate_accepts_exactly_dense_witness :
    (validate_workflow wfGap = Except.ok () ↔
      formsDenseRange (seqNumbers wfGap.steps) = true) ∧
    (∃ m, WSError.invalidWorkflow "Sequence numbers must be consecutive" =
      WSError.invalidWorkflow m) ∧
    (execute_workflow [] wfGap []).workflowStatus = wfGap.status ∧
    (execute_workflow [] wfGap []).workflowError = wfGap.error ∧
    (execute_workflow [] wfGap []).result =
      Except.error (WSError.invalidWorkflow "Sequence numbers must be consecutive") := by
  have h := validate_accepts_exactly_dense wfGap
  have h2 := h.2 (WSError.invalidWorkflow "Sequence numbers must be consecutive") [] [] rfl
  exact ⟨h.1 (List.cons_ne_nil _ _), h2.1, h2.2.1, h2.2.2.1, h2.2.2.2⟩

/-- C4 counterexample: the claim says resolving `"input.<name>"` fails with
`UnresolvedBindingError` when the input key does not exist; the code's
`context["input"].get(input_name)` (line 653) returns `None` instead, so
resolution succeeds with a null value. -/
theorem resolve_missing_input_returns_null :
    resolveParamMapping [] [] "input.missing" = Except.ok PyVal.none :=
  rfl

/-- C4 amended: `"input.<name>"` resolves to `context.input[name]` and
`"step.<id>.<output>"` to `context.step_outputs[id][output]`, but a missing
input key, unknown step, or missing output resolves to `None` rather than
raising; any other string resolves to itself as a literal.  (The step form
needs a dot-free step id; a `"step."`-prefixed mapping with no further dot
raises `ValueError` from tuple unpacking, line 655.) -/
theorem resolve_binding_semantics :
    (∀ (input : List (String × PyVal)) (so : List (String × List (String × PyVal)))
       (name : String),
       resolveParamMapping input so ("input." ++ name) =
         Except.ok (alistGetD input name PyVal.none)) ∧
    (∀ (input : List (String × PyVal)) (so : List (String × List (String × PyVal)))
       (sid out : String), sid.data.contains '.' = false →
       resolveParamMapping input so ("step." ++ sid ++ "." ++ out) =
         Except.ok (alistGetD (alistGetD so sid []) out PyVal.none)) ∧
    (∀ (input : List (String × PyVal)) (so : List (String × List (String × PyVal)))
       (m : String), "input.".data.isPrefixOf m.data = false →
       "step.".data.isPrefixOf m.data = false →
       resolveParamMapping input so m = Except.ok (PyVal.str m)) := by
  refine ⟨?_, ?_, ?_⟩
  · intro input so name
    have hdata : ("input." ++ name).data = "input.".data ++ name.data :=
      String.data_append _ _
    have hpre : "input.".data.isPrefixOf ("input." ++ name).data = true := by
      rw [hdata]
      exact List.isPrefixOf_iff_prefix.mpr (List.prefix_append _ _)
    have hdrop : ("input." ++ name).data.drop 6 = name.data := by
      rw [hdata]
      have h6 : ("input.".data).length = 6 := rfl
      rw [← h6, List.drop_left]
    rw [resolveParamMapping, if_pos hpre, hdrop, strMk_data]
  · intro input so sid out h
    have hdata : ("step." ++ sid ++ "." ++ out).data =
        "step.".data ++ (sid.data ++ '.' :: out.data) := by
      rw [String.data_append, String.data_append, String.data_append]
      simp [List.append_assoc]
    have hnpre : "input.".data.isPrefixOf ("step." ++ sid ++ "." ++ out).data = false := by
      rw [hdata]
      rfl
    have hpre : "step.".data.isPrefixOf ("step." ++ sid ++ "." ++ out).data = true := by
      rw [hdata]
      exact List.isPrefixOf_iff_prefix.mpr (List.prefix_append _ _)
    have hdrop : ("step." ++ sid ++ "." ++ out).data.drop 5 = sid.data ++ '.' :: out.data := by
      rw [hdata]
      have h5 : ("step.".data).length = 5 := rfl
      rw [← h5, List.drop_left]
    rw [resolveParamMapping, if_neg (by rw [hnpre]; exact Bool.false_ne_true), if_pos hpre,
      hdrop, splitFirstDot_no_dot sid.data out.data h]
  · intro input so m h1 h2
    rw [resolveParamMapping, if_neg (by rw [h1]; exact Bool.false_ne_true),
      if_neg (by rw [h2]; exact Bool.false_ne_true)]

/-- C4 witness: the amended theorem applied to a present input binding, a
present step-output binding, and a literal. -/
theorem resolve_binding_semantics_witness :
    resolveParamMapping [("x", PyVal.int 1)] [] ("input." ++ "x") =
      Except.ok (alistGetD [("x", PyVal.int 1)] "x" PyVal.none) ∧
    resolveParamMapping [] [("s1", [("o", PyVal.str "out1")])] ("step." ++ "s1" ++ "." ++ "o") =
      Except.ok (alistGetD (alistGetD [("s1", [("o", PyVal.str "out1")])] "s1" []) "o"
        PyVal.none) ∧
    resolveParamMapping [] [] "hello" = Except.ok (PyVal.str "hello") :=
  ⟨resolve_binding_semantics.1 _ _ "x",
   resolve_binding_semantics.2.1 _ _ "s1" "o" rfl,
   resolve_binding_semantics.2.2 _ _ "hello" rfl rfl⟩

/-- C5 counterexample: the claim says an array-valued binding is joined
with `" | "` before substitution.  The code substitutes `str(value)` — for
the list `["a", "b"]` that is Python's rendering `['a', 'b']`, and no
`" | "` join exists anywhere in the code, so the substituted text differs
from the claimed `"Q: a | b"`. -/
theorem string_token_list_value_not_joined :
    substituteStringTokens [⟨"q", "string"⟩]
      [("q", PyVal.list [PyVal.str "a", PyVal.str "b"])]
      ("Q: " ++ placeholder "q") Option.none =
      ("Q: [" ++ qm ++ "a" ++ qm ++ ", " ++ qm ++ "b" ++ qm ++ "]", Option.none) ∧
    ("Q: [" ++ qm ++ "a" ++ qm ++ ", " ++ qm ++ "b" ++ qm ++ "]") ≠ "Q: a | b" :=
  ⟨rfl, by decide⟩

/-- C5 amended: every occurrence of a string token's `{{name}}` placeholder
in both the user and system text is replaced with `str(value)` — Python's
conversion, with no `" | "` join for lists — and the token validation that
runs before any LLM call succeeds exactly when every string token is bound
in `regular_variables` and every file token in `file_variables`, the first
missing string token raising HTTP 400 with detail
`"Missing required string token: <name>"`. -/
theorem string_token_substitution_contract :
    (∀ (regular : List (String × PyVal)) (fileVars : List (String × String))
       (tokens : List TemplateToken),
       validateRequiredTokens regular fileVars tokens = Except.ok () ↔
         ∀ t ∈ tokens,
           (t.ttype = "string" → alistHasKey regular t.name = true) ∧
           (t.ttype = "file" → alistHasKey fileVars t.name = true)) ∧
    (∀ (name : String) (regular : List (String × PyVal))
       (fileVars : List (String × String)) (ts : List TemplateToken),
       alistHasKey regular name = false →
       validateRequiredTokens regular fileVars (⟨name, "string"⟩ :: ts) =
         Except.error ("Missing required string token: " ++ name)) ∧
    substituteStringTokens [⟨"q", "string"⟩] [("q", PyVal.str "2+2?")]
      ("What is " ++ placeholder "q") (some ("Sys " ++ placeholder "q")) =
      ("What is 2+2?", some "Sys 2+2?") :=
  ⟨validateRequiredTokens_ok_iff, validateRequiredTokens_missing_string, rfl⟩

/-- C5 witness: the amended theorem instantiated at a bound token, a
missing token, and the Scenario B substitution. -/
theorem string_token_substitution_contract_witness :
    (validateRequiredTokens [("q", PyVal.str "v")] [] [⟨"q", "string"⟩] = Except.ok () ↔
      ∀ t ∈ [(⟨"q", "string"⟩ : TemplateToken)],
        (t.ttype = "string" → alistHasKey [("q", PyVal.str "v")] t.name = true) ∧
        (t.ttype = "file" → alistHasKey ([] : List (String × String)) t.name = true)) ∧
    (alistHasKey ([] : List (String × PyVal)) "q" = false ∧
      validateRequiredTokens [] [] [⟨"q", "string"⟩] =
        Except.error ("Missing required string token: " ++ "q")) ∧
    substituteStringTokens [⟨"q", "string"⟩] [("q", PyVal.str "2+2?")]
      ("What is " ++ placeholder "q") (some ("Sys " ++ placeholder "q")) =
      ("What is 2+2?", some "Sys 2+2?") :=
  ⟨string_token_substitution_contract.1 _ _ _,
   ⟨rfl, string_token_substitution_contract.2.1 "q" [] [] [] rfl⟩,
   string_token_substitution_contract.2.2⟩

/-- C6 counterexample: the claim says the raw LLM text (`"oops"`) is
preserved in the error detail surfaced to the caller.  The HTTP 422 detail
is `"LLM response was not valid JSON: " + str(JSONDecodeError)` — for
`"oops"` that is `"Expecting value: line 1 column 1 (char 0)"`, which does
not contain `"oops"`; the raw text goes only to the server log (lines
323-324). -/
theorem invalid_json_detail_lacks_raw_text :
    processLLMResponse jsonLoads (PyVal.dict [("type", PyVal.str "object")]) "oops" =
      Except.error "LLM response was not valid JSON: Expecting value: line 1 column 1 (char 0)" ∧
    strContainsSub "LLM response was not valid JSON: Expecting value: line 1 column 1 (char 0)"
      "oops" = false :=
  ⟨rfl, rfl⟩

/-- C6 amended: when the template's `output_schema.type` is `"object"` and
the raw text fails to parse as JSON, `execute_llm` fails (HTTP 422) with
detail `"LLM response was not valid JSON: <parser message>"` — never
silently coercing — but the detail carries the parser's message, not the
raw text, and the workflow engine itself never reaches an LLM (ACTION steps
return mock outputs), so no workflow status transition is involved. -/
theorem object_schema_parse_failure_detail (loads : String → Except String PyVal)
    (kvs : List (String × PyVal)) (raw msg : String)
    (h1 : alistGet kvs "type" = some (PyVal.str "object"))
    (h2 : loads raw = Except.error msg) :
    processLLMResponse loads (PyVal.dict kvs) raw =
      Except.error ("LLM response was not valid JSON: " ++ msg) := by
  rw [processLLMResponse, h1]
  dsimp only
  rw [h2]
  rfl

/-- C6 witness: the amended theorem applied to the modelled `json.loads`
and the raw response `"oops"`. -/
theorem object_schema_parse_failure_detail_witness :
    alistGet [("type", PyVal.str "object")] "type" = some (PyVal.str "object") ∧
    jsonLoads "oops" = Except.error "Expecting value: line 1 column 1 (char 0)" ∧
    processLLMResponse jsonLoads (PyVal.dict [("type", PyVal.str "object")]) "oops" =
      Except.error ("LLM response was not valid JSON: " ++
        "Expecting value: line 1 column 1 (char 0)") :=
  ⟨rfl, rfl,
   object_schema_parse_failure_detail jsonLoads [("type", PyVal.str "object")] "oops"
     "Expecting value: line 1 column 1 (char 0)" rfl rfl⟩

/-- C7 counterexample: the claim says every template whose `output_schema`
has type `"object"` gets one output `response` whose schema is the full
object schema.  The code additionally requires a `fields` key (line 749):
for the template `{"type": "object"}` without `fields`, the single output's
schema is the freshly built
`{name: "response", type: "object", is_array: False, description: ""}`,
not the template's schema. -/
theorem object_schema_without_fields_not_full_schema :
    sigOutputs (_get_llm_signature [tplNoFields] "t0") =
      some (PyVal.list [PyVal.dict
        [("name", PyVal.str "response"),
         ("description", PyVal.str "LLM response"),
         ("schema", PyVal.dict
            [("name", PyVal.str "response"), ("type", PyVal.str "object"),
             ("is_array", PyVal.bool false), ("description", PyVal.str "")])]]) ∧
    PyVal.dict
      [("name", PyVal.str "response"), ("type", PyVal.str "object"),
       ("is_array", PyVal.bool false), ("description", PyVal.str "")] ≠
    PyVal.dict [("type", PyVal.str "object")] :=
  ⟨rfl, by simp⟩

/-- C7 amended: a missing template yields the empty signature
`{parameters: [], outputs: []}` with no exception; a found template whose
`output_schema` is a dict of type `"object"` **with a `fields` key** yields
exactly one output named `response` whose schema is the full object schema,
unexpanded. -/
theorem llm_signature_missing_and_object (db : List PromptTemplateRec) (tid : String) :
    (db.find? (fun t => t.template_id = tid) = Option.none →
      _get_llm_signature db tid =
        PyVal.dict [("parameters", PyVal.list []), ("outputs", PyVal.list [])]) ∧
    (∀ (tpl : PromptTemplateRec) (kvs : List (String × PyVal)),
      db.find? (fun t => t.template_id = tid) = some tpl →
      tpl.output_schema = PyVal.dict kvs →
      pyEqStr (alistGetD kvs "type" (PyVal.str "string")) "object" = true →
      alistHasKey kvs "fields" = true →
      sigOutputs (_get_llm_signature db tid) =
        some (PyVal.list [PyVal.dict
          [("name", PyVal.str "response"),
           ("description", alistGetD kvs "description" (PyVal.str "Complete output object")),
           ("schema", PyVal.dict kvs)]])) := by
  constructor
  · intro h
    rw [_get_llm_signature, h]
  · intro tpl kvs hfind hschema htype hfields
    have houts : signatureOutputs tpl.output_schema =
        [PyVal.dict [("name", PyVal.str "response"),
          ("description", alistGetD kvs "description" (PyVal.str "Complete output object")),
          ("schema", PyVal.dict kvs)]] := by
      rw [hschema, signatureOutputs, if_pos ⟨htype, hfields⟩]
    simp only [_get_llm_signature, hfind, houts, sigOutputs, alistGet]
    simp

/-- C7 witness: the amended theorem applied to the empty template store and
to a template whose object schema carries a `fields` key. -/
theorem llm_signature_missing_and_object_witness :
    _get_llm_signature [] "missing" =
      PyVal.dict [("parameters", PyVal.list []), ("outputs", PyVal.list [])] ∧
    sigOutputs (_get_llm_signature [tplFields] "t1") =
      some (PyVal.list [PyVal.dict
        [("name", PyVal.str "response"),
         ("description", alistGetD
            [("type", PyVal.str "object"),
             ("description", PyVal.str "Complete answer"),
             ("fields", PyVal.dict [("answer", PyVal.dict [("type", PyVal.str "string")])])]
            "description" (PyVal.str "Complete output object")),
         ("schema", PyVal.dict
            [("type", PyVal.str "object"),
             ("description", PyVal.str "Complete answer"),
             ("fields", PyVal.dict [("answer", PyVal.dict [("type", PyVal.str "string")])])])]]) :=
  ⟨(llm_signature_missing_and_object [] "missing").1 rfl,
   (llm_signature_missing_and_object [tplFields] "t1").2 tplFields
     [("type", PyVal.str "object"),
      ("description", PyVal.str "Complete answer"),
      ("fields", PyVal.dict [("answer", PyVal.dict [("type", PyVal.str "string")])])]
     rfl rfl rfl rfl⟩

/-- C8: the claim (and the code's own comment at `models.py` line 235,
`# Changed default to 3`, the Pydantic description, and the
`get_workflow` fallback at lines 153-161) says an evaluation config that
does not specify `maximum_jumps` gets 3.  The validator that runs on every
write stores `value.get("maximum_jumps", 1)` — so the dict
`{"conditions": [], "default_action": "continue"}` is stored with
`maximum_jumps = 1`, not 3. -/
theorem maximum_jumps_default_stored_one :
    validate_evaluation_config jsonLoads "u"
      (PyVal.dict [("conditions", PyVal.list []), ("default_action", PyVal.str "continue")]) =
    PyVal.dict [("conditions", PyVal.list []), ("default_action", PyVal.str "continue"),
                ("maximum_jumps", PyVal.int 1)] :=
  rfl

/-- C9: whatever value is assigned to `evaluation_config` — `None`, a
string (whatever `json.loads` does with it), a non-dict, or a dict with
malformed entries — the stored value is a well-formed configuration:
conditions a list of condition records with operators from the allowed
six (others coerced to `"equals"`), `default_action` in
`{continue, end}`, and `maximum_jumps` a non-negative Python integer. -/
theorem evaluation_config_always_well_formed
    (loads : String → Except String PyVal) (uuid : String) (value : PyVal) :
    wellFormedEvalConfig (validate_evaluation_config loads uuid value) = true := by
  cases value with
  | none => rfl
  | str s =>
      rw [validate_evaluation_config]
      cases loads s with
      | error e => rfl
      | ok v => exact wf_validateEvalDict uuid v
  | bool b => exact wf_validateEvalDict uuid (PyVal.bool b)
  | int n => exact wf_validateEvalDict uuid (PyVal.int n)
  | list xs => exact wf_validateEvalDict uuid (PyVal.list xs)
  | dict kvs => exact wf_validateEvalDict uuid (PyVal.dict kvs)

/-- C10: a workflow with zero steps always fails validation with
`InvalidWorkflowError("Workflow must have at least one step")` before the
status write, so `execute_workflow` leaves `status` and `error` unchanged
and the empty workflow can never enter `running`, `completed` or `failed`
through it. -/
theorem empty_workflow_rejected (wf : WorkflowRec) (tools : List ToolRec)
    (input : List (String × PyVal)) (h : wf.steps = []) :
    (execute_workflow tools wf input).workflowStatus = wf.status ∧
    (execute_workflow tools wf input).workflowError = wf.error ∧
    (execute_workflow tools wf input).result =
      Except.error (WSError.invalidWorkflow "Workflow must have at least one step") := by
  have hv : validate_workflow wf =
      Except.error (WSError.invalidWorkflow "Workflow must have at least one step") := by
    rw [validate_workflow, h]
  exact execute_workflow_validation_error wf _ tools input hv

/-- C10 witness: the theorem applied to the concrete empty workflow in
status `draft`. -/
theorem empty_workflow_rejected_witness :
    wfEmpty.steps = [] ∧
    (execute_workflow [] wfEmpty []).workflowStatus = wfEmpty.status ∧
    (execute_workflow [] wfEmpty []).workflowError = wfEmpty.error ∧
    (execute_workflow [] wfEmpty []).result =
      Except.error (WSError.invalidWorkflow "Workflow must have at least one step") := by
  have h := empty_workflow_rejected wfEmpty [] [] rfl
  exact ⟨rfl, h.1, h.2.1, h.2.2⟩

end WS
